import Mathlib

/-
Shallow embedding of the S3toGS sync tool (src/S3toGS.go).

The program lists all objects under an S3 prefix, and for each object:
stats the corresponding GS object, compares the S3 ETag (quotes stripped,
case-insensitive) against the hex-encoded GS MD5 and the sizes, and either
skips the object or transfers it through a local staging file
(MkdirAll, Create, Download, upload via writeToGS, Remove, then a
verification stat of the destination).  A uint64 accumulator counts the
bytes of every object decided for transfer (including dry-run).

The embedding models the decision logic and the per-object pipeline as
pure functions over an explicit destination store (an association list
from object key to attributes) and an environment of I/O outcomes.
-/

/-- Path separator, used by the simplified model of filepath.Base and
filepath.Dir (the Go functions additionally clean paths; no claim depends
on that cleaning). -/
def slash : String := "/"

/-- ASCII case folding of one character.  Models the folding performed by
strings.EqualFold, restricted to ASCII, which covers hex digests and
S3 ETags. -/
def foldChar (c : Char) : Char := c.toLower

/-- Model of strings.EqualFold (ASCII subset): equality of the two strings
after case folding. -/
def equalFold (s t : String) : Bool :=
  s.toList.map foldChar == t.toList.map foldChar

/-- Model of strings.Replace(s, quote, empty, -1) at src/S3toGS.go:123 -
removes every double-quote character. -/
def stripQuotes (s : String) : String :=
  String.mk (s.toList.filter (fun c => c != '"'))

/-- One lowercase hex digit, as produced by hex.EncodeToString. -/
def hexDigit (n : Nat) : Char :=
  if n < 10 then Char.ofNat (48 + n) else Char.ofNat (87 + n)

/-- Model of hex.EncodeToString: two lowercase hex digits per byte. -/
def hexEncode (bs : List Nat) : String :=
  String.mk ((bs.map (fun b => [hexDigit (b / 16 % 16), hexDigit (b % 16)])).flatten)

/-- Last path component (the characters after the last separator) -
simplified model of filepath.Base. -/
def basename (p : String) : String :=
  String.mk ((p.toList.reverse.takeWhile (fun c => c != '/')).reverse)

/-- All but the last path component (the characters before the last
separator) - simplified model of filepath.Dir. -/
def dirOf (p : String) : String :=
  String.mk (((p.toList.reverse.dropWhile (fun c => c != '/')).drop 1).reverse)

/-- Simplified model of filepath.Join for two components. -/
def joinPath (a b : String) : String := a ++ slash ++ b

/-- One listed S3 object: key, ETag and size, as read from the
ListObjectsV2 result (src/S3toGS.go:120-124). -/
structure S3Object where
  key : String
  eTag : String
  size : Nat
  deriving DecidableEq

/-- Destination (GS) object attributes used by the program: MD5 bytes and
size (src/S3toGS.go:129-130). -/
structure GSAttrs where
  md5 : List Nat
  size : Nat
  deriving DecidableEq

/-- The destination bucket, modelled as an association list from key to
attributes; the first entry for a key wins. -/
abbrev Store := List (String × GSAttrs)

/-- Lookup of a key in the destination store. -/
def findAttrs : Store → String → Option GSAttrs
  | [], _ => none
  | (k, a) :: rest, key => if k = key then some a else findAttrs rest key

/-- The comparison of the normalized S3 hash with the destination MD5:
strings.EqualFold(s3MD5, hex.EncodeToString(gsAttrs.MD5)) at
src/S3toGS.go:129. -/
def hashEq (s3MD5 : String) (a : GSAttrs) : Bool :=
  equalFold s3MD5 (hexEncode a.md5)

/-- The five branches of the per-object conditional in main
(src/S3toGS.go:128-181), identified by the message each one prints:
skipAlready is the outer else branch at line 179-181, skipHash the branch
at 132-133, skipSize at 134-135, dryTransfer at 136-138 and transfer the
pipeline at 139-177. -/
inductive SyncAction where
  | skipAlready
  | skipHash
  | skipSize
  | dryTransfer
  | transfer
  deriving DecidableEq

/-- The branch selection of src/S3toGS.go:128-181, with the destination
stat outcome split into a success flag gsOk (gsErr == nil) and attribute
values a.  When gsOk is false the attributes are never inspected by the
source (short-circuit evaluation guards every access); the function here
is total in a, and the guards reproduce the source conditions exactly. -/
def decideRaw (dryRun gsOk : Bool) (s3MD5 : String) (s3Size : Nat) (a : GSAttrs) : SyncAction :=
  if !gsOk || !hashEq s3MD5 a || s3Size != a.size then
    if gsOk && hashEq s3MD5 a then .skipHash
    else if gsOk && (s3Size == a.size) then .skipSize
    else if dryRun then .dryTransfer
    else .transfer
  else .skipAlready

/-- Attribute values standing for the unread fields of a failed stat. -/
def defaultAttrs : GSAttrs := ⟨[], 0⟩

/-- Branch selection with the stat result as an Option: none when the
Attrs call at src/S3toGS.go:121 returned an error. -/
def decideAction (dryRun : Bool) (s3MD5 : String) (s3Size : Nat)
    (statRes : Option GSAttrs) : SyncAction :=
  match statRes with
  | some a => decideRaw dryRun true s3MD5 s3Size a
  | none => decideRaw dryRun false s3MD5 s3Size defaultAttrs

/-- The spec's SyncDecision enumeration (spec.md section 3). -/
inductive SyncDecision where
  | skipHashMatch
  | skipSizeMatch
  | transfer
  | transferDryRun
  deriving DecidableEq

/-- Decision policy as worded by the spec (spec.md section 4.1), used as
the refinement reference for the code's branch selection: stat failure
gives Transfer, then hash match gives Skip-HashMatch, then size match
gives Skip-SizeMatch, else Transfer; dry-run turns Transfer into
Transfer-DryRun. -/
def specDecision (dryRun : Bool) (srcHash : String) (srcSize : Nat)
    (dst : Option GSAttrs) : SyncDecision :=
  match dst with
  | none => if dryRun then .transferDryRun else .transfer
  | some a =>
    if hashEq srcHash a then .skipHashMatch
    else if srcSize == a.size then .skipSizeMatch
    else if dryRun then .transferDryRun
    else .transfer

/-- Abstraction of the code's branches to the spec's decision vocabulary.
The outer skip branch (both hash and size match) falls under the spec's
Skip-HashMatch, the first matching test of the spec's ordered policy. -/
def actionToDecision : SyncAction → SyncDecision
  | .skipAlready => .skipHashMatch
  | .skipHash => .skipHashMatch
  | .skipSize => .skipSizeMatch
  | .dryTransfer => .transferDryRun
  | .transfer => .transfer

/-- Observable I/O actions of the transfer pipeline, in program order:
MkdirAll (line 143), Create (148), the S3 download (157), the GS upload
(166-167), Remove (171) and the verification stat (173). -/
inductive Event where
  | mkdirAll (dir : String)
  | createFile (path : String)
  | download (key : String) (path : String)
  | upload (path : String) (key : String)
  | removeFile (path : String)
  | statDst (key : String)
  deriving DecidableEq

/-- Outcomes of the fallible external operations of one object's transfer:
whether MkdirAll, Create, the S3 download, writeToGS and the verification
Attrs call succeed, and the destination attributes a completed upload
leaves in the store.  The source discards the result of the download
(src/S3toGS.go:157 ignores both return values), so downloadOk is never
consulted by stepObject. -/
structure TransferEnv where
  mkdirOk : Bool
  createOk : Bool
  downloadOk : Bool
  uploadOk : Bool
  verifyStatOk : Bool
  uploadedAttrs : GSAttrs
  deriving DecidableEq

/-- Result of processing one object: either the run continues with the
new accumulator, destination store, chosen branch, emitted I/O events and
the final on-disk presence of the staged file, or the run aborts with an
exit code (log.Fatal / panic(Exit 1)), the events so far and the staged
file's presence. -/
inductive StepOutcome where
  | ok (acc : Nat) (store : Store) (act : SyncAction) (events : List Event) (fileLeft : Bool)
  | fatal (code : Nat) (events : List Event) (fileLeft : Bool)
  deriving DecidableEq

/-- The I/O events of a step outcome. -/
def StepOutcome.eventList : StepOutcome → List Event
  | .ok _ _ _ e _ => e
  | .fatal _ e _ => e

/-- One iteration of the loop at src/S3toGS.go:120-182, after the
destination stat: branch selection, and for the transfer branch the
pipeline MkdirAll / Create / Download (error discarded) / upload /
Remove / verification stat, with the accumulator increment
amtTransferred += uint64(s3Size) of lines 137 and 140 taken modulo 2^64
as in Go's uint64 arithmetic. -/
def stepObject (dryRun : Bool) (localDir : String) (obj : S3Object)
    (statRes : Option GSAttrs) (env : TransferEnv) (acc : Nat) (store : Store) :
    StepOutcome :=
  let s3MD5 := stripQuotes obj.eTag
  let s3Size := obj.size
  let localFilepath := joinPath localDir (basename obj.key)
  match decideAction dryRun s3MD5 s3Size statRes with
  | .skipAlready => .ok acc store .skipAlready [] false
  | .skipHash => .ok acc store .skipHash [] false
  | .skipSize => .ok acc store .skipSize [] false
  | .dryTransfer => .ok ((acc + s3Size) % 2 ^ 64) store .dryTransfer [] false
  | .transfer =>
    let acc1 := (acc + s3Size) % 2 ^ 64
    if !env.mkdirOk then
      .fatal 1 [.mkdirAll (dirOf localFilepath)] false
    else if !env.createOk then
      .fatal 1 [.mkdirAll (dirOf localFilepath), .createFile localFilepath] false
    else
      let evs : List Event := [.mkdirAll (dirOf localFilepath), .createFile localFilepath,
        .download obj.key localFilepath, .upload localFilepath obj.key]
      if !env.uploadOk then
        .fatal 1 evs true
      else
        let store1 : Store := (obj.key, env.uploadedAttrs) :: store
        let evs2 := evs ++ [.removeFile localFilepath, .statDst obj.key]
        match (if env.verifyStatOk then findAttrs store1 obj.key else none) with
        | none => .fatal 1 evs2 false
        | some a =>
          if s3Size != a.size then .fatal 1 evs2 false
          else .ok acc1 store1 .transfer evs2 false

/-- Result of a whole run: normal completion with the final accumulator,
final destination store and the branch taken for each object in listing
order, or an abort with an exit code. -/
inductive RunResult where
  | done (acc : Nat) (store : Store) (acts : List SyncAction)
  | aborted (code : Nat)
  deriving DecidableEq

/-- The loop of src/S3toGS.go:120-182 over the whole listing.  statOk
tells, per key, whether the destination stat call succeeds (a failed stat
is indistinguishable from an absent object in the source); env gives the
transfer-pipeline outcomes per key. -/
def runSync (dryRun : Bool) (localDir : String) (objs : List S3Object)
    (statOk : String → Bool) (env : String → TransferEnv) (acc : Nat) (store : Store) :
    RunResult :=
  match objs with
  | [] => .done acc store []
  | obj :: rest =>
    let statRes := if statOk obj.key then findAttrs store obj.key else none
    match stepObject dryRun localDir obj statRes (env obj.key) acc store with
    | .fatal c _ _ => .aborted c
    | .ok acc' store' act _ _ =>
      match runSync dryRun localDir rest statOk env acc' store' with
      | .done accF stF acts => .done accF stF (act :: acts)
      | .aborted c => .aborted c

/-- Whether a branch adds the object's size to the byte accumulator
(src/S3toGS.go:137 and 140). -/
def countsBytes : SyncAction → Bool
  | .transfer => true
  | .dryTransfer => true
  | _ => false

/-- Sum of the sizes of the objects whose branch adds to the accumulator;
objects with a skip branch contribute zero. -/
def transferSum (l : List (S3Object × SyncAction)) : Nat :=
  (l.map fun p => if countsBytes p.2 then p.1.size else 0).sum

/-- The destination holds an acceptable copy of the object: it is present
and its hash or its size matches the source's. -/
def goodAt (st : Store) (obj : S3Object) : Prop :=
  ∃ a, findAttrs st obj.key = some a ∧
    (hashEq (stripQuotes obj.eTag) a = true ∨ obj.size = a.size)

/-- The six pipeline events of a transfer that reaches the verification
stat, in the order the source performs them; note the removal of the
staged file (src/S3toGS.go:171) precedes the verification stat (173). -/
def transferEvents (dir : String) (obj : S3Object) : List Event :=
  [.mkdirAll (dirOf (joinPath dir (basename obj.key))),
   .createFile (joinPath dir (basename obj.key)),
   .download obj.key (joinPath dir (basename obj.key)),
   .upload (joinPath dir (basename obj.key)) obj.key,
   .removeFile (joinPath dir (basename obj.key)),
   .statDst obj.key]

/-- The four pipeline events emitted when the upload step fails. -/
def uploadEvents (dir : String) (obj : S3Object) : List Event :=
  [.mkdirAll (dirOf (joinPath dir (basename obj.key))),
   .createFile (joinPath dir (basename obj.key)),
   .download obj.key (joinPath dir (basename obj.key)),
   .upload (joinPath dir (basename obj.key)) obj.key]

/-- Whether the step outcome leaves the staged file on disk. -/
def StepOutcome.stagedLeft : StepOutcome → Bool
  | .ok _ _ _ _ f => f
  | .fatal _ _ f => f

/-- Sample staging directory for concrete evaluations. -/
def sampleDir : String := "dl"

/-- Sample object key. -/
def sampleKeyA : String := "a.txt"

/-- Sample S3 ETag: quoted uppercase hex, as S3 reports ETags. -/
def sampleTagFF : String := "\"FF10\""

/-- MD5 bytes whose hex encoding is ff10 - matching sampleTagFF up to
case after quote stripping. -/
def sampleMD5FF : List Nat := [255, 16]

/-- Destination attributes with matching hash and size 3. -/
def sampleAttrsFF3 : GSAttrs := ⟨sampleMD5FF, 3⟩

/-- Destination attributes with matching hash and size 9. -/
def sampleAttrsFF9 : GSAttrs := ⟨sampleMD5FF, 9⟩

/-- MD5 bytes whose hex encoding is 0102 - not matching sampleTagFF. -/
def sampleMD5Other : List Nat := [1, 2]

/-- Destination attributes with a different hash and size 3. -/
def sampleAttrsOther3 : GSAttrs := ⟨sampleMD5Other, 3⟩

/-- Sample source object of size 3. -/
def sampleObjA : S3Object := ⟨sampleKeyA, sampleTagFF, 3⟩

/-- Environment in which every external operation succeeds and the upload
stores attributes of the source's size. -/
def sampleEnvAllOk : TransferEnv := ⟨true, true, true, true, true, sampleAttrsFF3⟩

/-- Environment in which only the S3 download fails. -/
def sampleEnvDL : TransferEnv := ⟨true, true, false, true, true, sampleAttrsFF3⟩

/-- Environment in which everything succeeds but the uploaded object ends
up with size 9, so the size verification fails. -/
def sampleEnvBadVerify : TransferEnv := ⟨true, true, true, true, true, sampleAttrsFF9⟩

/-- The largest non-negative int64 value, used as an object size. -/
def bigSize : Nat := 2 ^ 63 - 1

/-- Three maximal-size objects; their total size exceeds 2^64. -/
def bigObjs : List S3Object :=
  [⟨"k1", sampleTagFF, bigSize⟩, ⟨"k2", sampleTagFF, bigSize⟩,
   ⟨"k3", sampleTagFF, bigSize⟩]

theorem decideRaw_statFail (d : Bool) (m : String) (s : Nat) (a : GSAttrs) :
    decideRaw d false m s a = (if d then .dryTransfer else .transfer) := by
  simp [decideRaw]

theorem decideAction_none (d : Bool) (m : String) (s : Nat) :
    decideAction d m s none = (if d then SyncAction.dryTransfer else .transfer) := by
  simp [decideAction, decideRaw_statFail]

theorem decideAction_some_hashT (d : Bool) (m : String) (s : Nat) (a : GSAttrs)
    (h : hashEq m a = true) :
    decideAction d m s (some a) =
      (if s = a.size then SyncAction.skipAlready else .skipHash) := by
  by_cases hs : s = a.size <;> simp [decideAction, decideRaw, h, hs]

theorem decideAction_some_size (d : Bool) (m : String) (s : Nat) (a : GSAttrs)
    (h : hashEq m a = false) (hs : s = a.size) :
    decideAction d m s (some a) = .skipSize := by
  simp [decideAction, decideRaw, h, hs]

theorem decideAction_some_diff (d : Bool) (m : String) (s : Nat) (a : GSAttrs)
    (h : hashEq m a = false) (hs : s ≠ a.size) :
    decideAction d m s (some a) = (if d then SyncAction.dryTransfer else .transfer) := by
  simp [decideAction, decideRaw, h, hs]

theorem decideAction_dry_iff (m : String) (s : Nat) (r : Option GSAttrs) :
    decideAction true m s r = .dryTransfer ↔ decideAction false m s r = .transfer := by
  cases r with
  | none => simp [decideAction_none]
  | some a =>
    by_cases h : hashEq m a
    · by_cases hs : s = a.size <;> simp [decideAction_some_hashT, h, hs]
    · by_cases hs : s = a.size
      · simp [decideAction_some_size, h, hs]
      · simp [decideAction_some_diff, h, hs]

theorem decideAction_false_ne_dry (m : String) (s : Nat) (r : Option GSAttrs) :
    decideAction false m s r ≠ .dryTransfer := by
  cases r with
  | none => simp [decideAction_none]
  | some a =>
    by_cases h : hashEq m a
    · by_cases hs : s = a.size <;> simp [decideAction_some_hashT, h, hs]
    · by_cases hs : s = a.size
      · simp [decideAction_some_size, h, hs]
      · simp [decideAction_some_diff, h, hs]

theorem decideAction_skipAH_hash (d : Bool) (m : String) (s : Nat) (a : GSAttrs)
    (h : decideAction d m s (some a) = .skipAlready ∨
      decideAction d m s (some a) = .skipHash) :
    hashEq m a = true := by
  by_cases hh : hashEq m a
  · exact hh
  · exfalso
    by_cases hs : s = a.size
    · rw [decideAction_some_size d m s a (by simpa using hh) hs] at h
      rcases h with h | h <;> exact absurd h (by simp)
    · rw [decideAction_some_diff d m s a (by simpa using hh) hs] at h
      rcases h with h | h <;> cases d <;> simp at h

theorem decideAction_skipSize_size (d : Bool) (m : String) (s : Nat) (a : GSAttrs)
    (h : decideAction d m s (some a) = .skipSize) : s = a.size := by
  by_cases hs : s = a.size
  · exact hs
  · exfalso
    by_cases hh : hashEq m a
    · rw [decideAction_some_hashT d m s a hh] at h
      simp [hs] at h
    · rw [decideAction_some_diff d m s a (by simpa using hh) hs] at h
      cases d <;> simp at h

/-- The code's branch selection refines the spec's decision policy of
section 4.1: abstracting each branch to the spec's vocabulary gives
exactly the spec's decision on every input. -/
theorem decide_refines (d : Bool) (m : String) (s : Nat) (r : Option GSAttrs) :
    actionToDecision (decideAction d m s r) = specDecision d m s r := by
  cases r with
  | none => cases d <;> simp [decideAction_none, specDecision, actionToDecision]
  | some a =>
    by_cases h : hashEq m a
    · by_cases hs : s = a.size <;>
        simp [decideAction_some_hashT, specDecision, actionToDecision, h, hs]
    · by_cases hs : s = a.size
      · simp [decideAction_some_size, specDecision, actionToDecision, h, hs]
      · cases d <;>
          simp [decideAction_some_diff, specDecision, actionToDecision, h, hs]

theorem stepObject_skip (d : Bool) (dir : String) (obj : S3Object) (r : Option GSAttrs)
    (env : TransferEnv) (acc : Nat) (store : Store) (act : SyncAction)
    (hdec : decideAction d (stripQuotes obj.eTag) obj.size r = act)
    (hskip : act = .skipAlready ∨ act = .skipHash ∨ act = .skipSize) :
    stepObject d dir obj r env acc store = .ok acc store act [] false := by
  rcases hskip with h | h | h <;> subst h <;> simp [stepObject, hdec]

theorem stepObject_dry (d : Bool) (dir : String) (obj : S3Object) (r : Option GSAttrs)
    (env : TransferEnv) (acc : Nat) (store : Store)
    (hdec : decideAction d (stripQuotes obj.eTag) obj.size r = .dryTransfer) :
    stepObject d dir obj r env acc store =
      .ok ((acc + obj.size) % 2 ^ 64) store .dryTransfer [] false := by
  simp [stepObject, hdec]

theorem stepObject_transfer_ok (d : Bool) (dir : String) (obj : S3Object)
    (r : Option GSAttrs) (env : TransferEnv) (acc : Nat) (store : Store)
    (hdec : decideAction d (stripQuotes obj.eTag) obj.size r = .transfer)
    (hm : env.mkdirOk = true) (hc : env.createOk = true) (hu : env.uploadOk = true)
    (hv : env.verifyStatOk = true) (hsz : env.uploadedAttrs.size = obj.size) :
    stepObject d dir obj r env acc store =
      .ok ((acc + obj.size) % 2 ^ 64) ((obj.key, env.uploadedAttrs) :: store) .transfer
        (transferEvents dir obj) false := by
  simp [stepObject, hdec, hm, hc, hu, hv, findAttrs, hsz, transferEvents]

theorem stepObject_transfer_verifyFail (d : Bool) (dir : String) (obj : S3Object)
    (r : Option GSAttrs) (env : TransferEnv) (acc : Nat) (store : Store)
    (hdec : decideAction d (stripQuotes obj.eTag) obj.size r = .transfer)
    (hm : env.mkdirOk = true) (hc : env.createOk = true) (hu : env.uploadOk = true)
    (hv : env.verifyStatOk = false ∨ env.uploadedAttrs.size ≠ obj.size) :
    stepObject d dir obj r env acc store =
      .fatal 1 (transferEvents dir obj) false := by
  rcases hv with hv | hv
  · simp [stepObject, hdec, hm, hc, hu, hv, transferEvents]
  · cases hvs : env.verifyStatOk
    · simp [stepObject, hdec, hm, hc, hu, hvs, transferEvents]
    · have : obj.size ≠ env.uploadedAttrs.size := fun h => hv h.symm
      simp [stepObject, hdec, hm, hc, hu, hvs, findAttrs, this, transferEvents]

theorem stepObject_transfer_uploadFail (d : Bool) (dir : String) (obj : S3Object)
    (r : Option GSAttrs) (env : TransferEnv) (acc : Nat) (store : Store)
    (hdec : decideAction d (stripQuotes obj.eTag) obj.size r = .transfer)
    (hm : env.mkdirOk = true) (hc : env.createOk = true) (hu : env.uploadOk = false) :
    stepObject d dir obj r env acc store = .fatal 1 (uploadEvents dir obj) true := by
  simp [stepObject, hdec, hm, hc, hu, uploadEvents]

theorem stepObject_ok_inv (d : Bool) (dir : String) (obj : S3Object) (r : Option GSAttrs)
    (env : TransferEnv) (acc : Nat) (store : Store) (acc' : Nat) (store' : Store)
    (act : SyncAction) (evs : List Event) (fl : Bool)
    (h : stepObject d dir obj r env acc store = .ok acc' store' act evs fl) :
    act = decideAction d (stripQuotes obj.eTag) obj.size r ∧
    ((countsBytes act = false ∧ acc' = acc ∧ store' = store) ∨
     (act = .dryTransfer ∧ acc' = (acc + obj.size) % 2 ^ 64 ∧ store' = store) ∨
     (act = .transfer ∧ acc' = (acc + obj.size) % 2 ^ 64 ∧
       store' = (obj.key, env.uploadedAttrs) :: store ∧
       env.uploadedAttrs.size = obj.size)) := by
  cases hdec : decideAction d (stripQuotes obj.eTag) obj.size r with
  | skipAlready =>
    rw [stepObject_skip d dir obj r env acc store _ hdec (Or.inl rfl)] at h
    cases h
    exact ⟨rfl, Or.inl ⟨rfl, rfl, rfl⟩⟩
  | skipHash =>
    rw [stepObject_skip d dir obj r env acc store _ hdec (Or.inr (Or.inl rfl))] at h
    cases h
    exact ⟨rfl, Or.inl ⟨rfl, rfl, rfl⟩⟩
  | skipSize =>
    rw [stepObject_skip d dir obj r env acc store _ hdec (Or.inr (Or.inr rfl))] at h
    cases h
    exact ⟨rfl, Or.inl ⟨rfl, rfl, rfl⟩⟩
  | dryTransfer =>
    rw [stepObject_dry d dir obj r env acc store hdec] at h
    cases h
    exact ⟨rfl, Or.inr (Or.inl ⟨rfl, rfl, rfl⟩)⟩
  | transfer =>
    cases hm : env.mkdirOk
    · simp [stepObject, hdec, hm] at h
    · cases hc : env.createOk
      · simp [stepObject, hdec, hm, hc] at h
      · cases hu : env.uploadOk
        · simp [stepObject, hdec, hm, hc, hu] at h
        · cases hvs : env.verifyStatOk
          · simp [stepObject, hdec, hm, hc, hu, hvs] at h
          · by_cases hsz : obj.size = env.uploadedAttrs.size
            · rw [stepObject_transfer_ok d dir obj r env acc store hdec hm hc hu hvs
                hsz.symm] at h
              cases h
              exact ⟨rfl, Or.inr (Or.inr ⟨rfl, rfl, rfl, hsz.symm⟩)⟩
            · rw [stepObject_transfer_verifyFail d dir obj r env acc store hdec hm hc hu
                (Or.inr (fun hx => hsz hx.symm))] at h
              cases h

theorem transferSum_cons (o : S3Object) (a : SyncAction) (l : List (S3Object × SyncAction)) :
    transferSum ((o, a) :: l) =
      (if countsBytes a = true then o.size else 0) + transferSum l := by
  simp [transferSum]

theorem runSync_cons (d : Bool) (dir : String) (obj : S3Object) (rest : List S3Object)
    (so : String → Bool) (env : String → TransferEnv) (acc : Nat) (store : Store) :
    runSync d dir (obj :: rest) so env acc store =
      match stepObject d dir obj (if so obj.key then findAttrs store obj.key else none)
          (env obj.key) acc store with
      | .fatal c _ _ => .aborted c
      | .ok acc' store' act _ _ =>
        match runSync d dir rest so env acc' store' with
        | .done accF stF acts => .done accF stF (act :: acts)
        | .aborted c => .aborted c := rfl

theorem runSync_cons_fatal (d : Bool) (dir : String) (obj : S3Object)
    (rest : List S3Object) (so : String → Bool) (env : String → TransferEnv)
    (acc : Nat) (store : Store) (c : Nat) (evs : List Event) (fl : Bool)
    (hstep : stepObject d dir obj (if so obj.key then findAttrs store obj.key else none)
      (env obj.key) acc store = .fatal c evs fl) :
    runSync d dir (obj :: rest) so env acc store = .aborted c := by
  rw [runSync_cons, hstep]

theorem runSync_cons_ok (d : Bool) (dir : String) (obj : S3Object)
    (rest : List S3Object) (so : String → Bool) (env : String → TransferEnv)
    (acc : Nat) (store : Store) (acc' : Nat) (store' : Store) (act : SyncAction)
    (evs : List Event) (fl : Bool)
    (hstep : stepObject d dir obj (if so obj.key then findAttrs store obj.key else none)
      (env obj.key) acc store = .ok acc' store' act evs fl) :
    runSync d dir (obj :: rest) so env acc store =
      match runSync d dir rest so env acc' store' with
      | .done accF stF acts => .done accF stF (act :: acts)
      | .aborted c => .aborted c := by
  rw [runSync_cons, hstep]

theorem runSync_done_acc (d : Bool) (dir : String) (objs : List S3Object)
    (so : String → Bool) (env : String → TransferEnv) (acc : Nat) (store : Store)
    (accF : Nat) (stF : Store) (acts : List SyncAction)
    (hacc : acc < 2 ^ 64)
    (h : runSync d dir objs so env acc store = .done accF stF acts) :
    accF = (acc + transferSum (objs.zip acts)) % 2 ^ 64 ∧ acts.length = objs.length := by
  induction objs generalizing acc store acts with
  | nil =>
    simp [runSync] at h
    obtain ⟨h1, h2, h3⟩ := h
    subst h1; subst h2; subst h3
    refine ⟨?_, rfl⟩
    simp [transferSum]
    omega
  | cons obj rest ih =>
    cases hstep : stepObject d dir obj
        (if so obj.key then findAttrs store obj.key else none) (env obj.key) acc store with
    | fatal c evs fl =>
      rw [runSync_cons_fatal d dir obj rest so env acc store c evs fl hstep] at h
      simp at h
    | ok acc' store' act evs fl =>
      rw [runSync_cons_ok d dir obj rest so env acc store acc' store' act evs fl hstep] at h
      cases hrun : runSync d dir rest so env acc' store' with
      | aborted c => rw [hrun] at h; simp at h
      | done acc2 st2 acts2 =>
        rw [hrun] at h
        simp only [RunResult.done.injEq] at h
        obtain ⟨h1, h2, h3⟩ := h
        subst h1; subst h2; subst h3
        obtain ⟨hact, hcase⟩ := stepObject_ok_inv d dir obj _ (env obj.key) acc store
          acc' store' act evs fl hstep
        rcases hcase with ⟨hcb, hacc', _⟩ | ⟨hdry, hacc', _⟩ | ⟨htr, hacc', _, _⟩
        · obtain ⟨ihe, ihl⟩ := ih acc' store' acts2 (by rw [hacc']; exact hacc) hrun
          refine ⟨?_, by simp [ihl]⟩
          rw [ihe, hacc', List.zip_cons_cons, transferSum_cons, hcb]
          simp
        · obtain ⟨ihe, ihl⟩ := ih acc' store' acts2
            (by rw [hacc']; exact Nat.mod_lt _ (by norm_num)) hrun
          refine ⟨?_, by simp [ihl]⟩
          rw [ihe, hacc', List.zip_cons_cons, transferSum_cons, hdry]
          simp [countsBytes, Nat.mod_add_mod, Nat.add_assoc]
        · obtain ⟨ihe, ihl⟩ := ih acc' store' acts2
            (by rw [hacc']; exact Nat.mod_lt _ (by norm_num)) hrun
          refine ⟨?_, by simp [ihl]⟩
          rw [ihe, hacc', List.zip_cons_cons, transferSum_cons, htr]
          simp [countsBytes, Nat.mod_add_mod, Nat.add_assoc]

theorem runSync_preserves (d : Bool) (dir : String) (objs : List S3Object)
    (so : String → Bool) (env : String → TransferEnv) (acc : Nat) (store : Store)
    (accF : Nat) (stF : Store) (acts : List SyncAction)
    (h : runSync d dir objs so env acc store = .done accF stF acts)
    (k : String) (hk : ∀ obj ∈ objs, obj.key ≠ k) :
    findAttrs stF k = findAttrs store k := by
  induction objs generalizing acc store acts with
  | nil =>
    simp [runSync] at h
    obtain ⟨_, h2, _⟩ := h
    rw [← h2]
  | cons obj rest ih =>
    cases hstep : stepObject d dir obj
        (if so obj.key then findAttrs store obj.key else none) (env obj.key) acc store with
    | fatal c evs fl =>
      rw [runSync_cons_fatal d dir obj rest so env acc store c evs fl hstep] at h
      simp at h
    | ok acc' store' act evs fl =>
      rw [runSync_cons_ok d dir obj rest so env acc store acc' store' act evs fl hstep] at h
      cases hrun : runSync d dir rest so env acc' store' with
      | aborted c => rw [hrun] at h; simp at h
      | done acc2 st2 acts2 =>
        rw [hrun] at h
        simp only [RunResult.done.injEq] at h
        obtain ⟨h1, h2, h3⟩ := h
        subst h1; subst h2; subst h3
        have hpres : findAttrs store' k = findAttrs store k := by
          obtain ⟨_, hcase⟩ := stepObject_ok_inv d dir obj _ (env obj.key) acc store
            acc' store' act evs fl hstep
          rcases hcase with ⟨_, _, hst⟩ | ⟨_, _, hst⟩ | ⟨_, _, hst, _⟩
          · rw [hst]
          · rw [hst]
          · rw [hst]
            have hne : obj.key ≠ k := hk obj (List.mem_cons_self obj rest)
            simp [findAttrs, hne]
        rw [ih acc' store' acts2 hrun (fun o ho => hk o (List.mem_cons_of_mem obj ho)),
          hpres]

theorem goodAt_of_findAttrs_eq (st st' : Store) (obj : S3Object)
    (heq : findAttrs st' obj.key = findAttrs st obj.key) (hg : goodAt st obj) :
    goodAt st' obj := by
  obtain ⟨a, ha, hor⟩ := hg
  exact ⟨a, heq.trans ha, hor⟩

theorem stepObject_ok_good (dir : String) (obj : S3Object) (so : String → Bool)
    (env : TransferEnv) (acc : Nat) (store : Store) (acc' : Nat) (store' : Store)
    (act : SyncAction) (evs : List Event) (fl : Bool)
    (hstep : stepObject false dir obj
      (if so obj.key then findAttrs store obj.key else none) env acc store =
      .ok acc' store' act evs fl) :
    goodAt store' obj := by
  obtain ⟨hact, hcase⟩ := stepObject_ok_inv false dir obj _ env acc store
    acc' store' act evs fl hstep
  rcases hcase with ⟨hcb, _, hst⟩ | ⟨hdry, _, _⟩ | ⟨htr, _, hst, hsz⟩
  · rw [hst]
    cases hso : so obj.key with
    | false =>
      rw [hso] at hact
      simp [decideAction_none] at hact
      rw [hact] at hcb
      simp [countsBytes] at hcb
    | true =>
      rw [hso] at hact
      rw [if_pos rfl] at hact
      cases hfd : findAttrs store obj.key with
      | none =>
        rw [hfd] at hact
        simp [decideAction_none] at hact
        rw [hact] at hcb
        simp [countsBytes] at hcb
      | some a =>
        rw [hfd] at hact
        refine ⟨a, hfd, ?_⟩
        cases act with
        | skipAlready =>
          exact Or.inl (decideAction_skipAH_hash false _ _ a (Or.inl hact.symm))
        | skipHash =>
          exact Or.inl (decideAction_skipAH_hash false _ _ a (Or.inr hact.symm))
        | skipSize =>
          exact Or.inr (decideAction_skipSize_size false _ _ a hact.symm)
        | dryTransfer => simp [countsBytes] at hcb
        | transfer => simp [countsBytes] at hcb
  · exfalso
    exact decideAction_false_ne_dry _ _ _ (by rw [← hact, hdry])
  · subst hst
    exact ⟨env.uploadedAttrs, by simp [findAttrs], Or.inr hsz.symm⟩

theorem runSync_good (dir : String) (objs : List S3Object) (so : String → Bool)
    (env : String → TransferEnv) (acc : Nat) (store : Store)
    (accF : Nat) (stF : Store) (acts : List SyncAction)
    (hnd : (objs.map S3Object.key).Nodup)
    (h : runSync false dir objs so env acc store = .done accF stF acts) :
    ∀ obj ∈ objs, goodAt stF obj := by
  induction objs generalizing acc store acts with
  | nil => simp
  | cons obj rest ih =>
    cases hstep : stepObject false dir obj
        (if so obj.key then findAttrs store obj.key else none) (env obj.key) acc store with
    | fatal c evs fl =>
      rw [runSync_cons_fatal false dir obj rest so env acc store c evs fl hstep] at h
      simp at h
    | ok acc' store' act evs fl =>
      rw [runSync_cons_ok false dir obj rest so env acc store acc' store' act evs fl
        hstep] at h
      cases hrun : runSync false dir rest so env acc' store' with
      | aborted c => rw [hrun] at h; simp at h
      | done acc2 st2 acts2 =>
        rw [hrun] at h
        simp only [RunResult.done.injEq] at h
        obtain ⟨h1, h2, h3⟩ := h
        subst h1; subst h2; subst h3
        have hndr : (rest.map S3Object.key).Nodup := (List.nodup_cons.mp hnd).2
        have hknotin : obj.key ∉ rest.map S3Object.key := (List.nodup_cons.mp hnd).1
        intro o ho
        rcases List.mem_cons.mp ho with ho1 | ho'
        · subst ho1
          have hgood' : goodAt store' o :=
            stepObject_ok_good dir o so (env o.key) acc store acc' store' act evs fl hstep
          refine goodAt_of_findAttrs_eq store' _ o ?_ hgood'
          exact runSync_preserves false dir rest so env acc' store' acc2 _ acts2 hrun
            o.key (fun o' ho' hko => hknotin (hko ▸ List.mem_map_of_mem S3Object.key ho'))
        · exact ih acc' store' acts2 hndr hrun o ho'

theorem runSync_allGood (dir : String) (objs : List S3Object)
    (env : String → TransferEnv) (acc : Nat) (store : Store)
    (hg : ∀ obj ∈ objs, goodAt store obj) :
    ∃ acts, runSync false dir objs (fun _ => true) env acc store = .done acc store acts ∧
      ∀ act ∈ acts, act = SyncAction.skipAlready ∨ act = .skipHash ∨
        act = .skipSize := by
  induction objs generalizing acc with
  | nil => exact ⟨[], rfl, by simp⟩
  | cons obj rest ih =>
    obtain ⟨a, ha, hor⟩ := hg obj (List.mem_cons_self obj rest)
    have hskip : ∃ act, decideAction false (stripQuotes obj.eTag) obj.size (some a) = act ∧
        (act = SyncAction.skipAlready ∨ act = .skipHash ∨ act = .skipSize) := by
      rcases hor with hh | hs
      · rw [decideAction_some_hashT false _ _ a hh]
        by_cases hsz : obj.size = a.size
        · exact ⟨.skipAlready, by simp [hsz], Or.inl rfl⟩
        · exact ⟨.skipHash, by simp [hsz], Or.inr (Or.inl rfl)⟩
      · by_cases hh : hashEq (stripQuotes obj.eTag) a
        · rw [decideAction_some_hashT false _ _ a hh]
          exact ⟨.skipAlready, by simp [hs], Or.inl rfl⟩
        · exact ⟨.skipSize,
            decideAction_some_size false _ _ a (by simpa using hh) hs,
            Or.inr (Or.inr rfl)⟩
    obtain ⟨act, hact, hactskip⟩ := hskip
    have hstat : (if (fun (_ : String) => true) obj.key then findAttrs store obj.key
        else none) = some a := by simpa using ha
    have hstep : stepObject false dir obj
        (if (fun (_ : String) => true) obj.key then findAttrs store obj.key else none)
        (env obj.key) acc store = .ok acc store act [] false := by
      refine stepObject_skip false dir obj _ (env obj.key) acc store act ?_ hactskip
      rw [hstat, hact]
    obtain ⟨acts, hrun, hall⟩ := ih acc (fun o ho => hg o (List.mem_cons_of_mem obj ho))
    refine ⟨act :: acts, ?_, ?_⟩
    · rw [runSync_cons_ok false dir obj rest (fun _ => true) env acc store acc store act
        [] false hstep, hrun]
    · intro x hx
      rcases List.mem_cons.mp hx with rfl | hx'
      · exact hactskip
      · exact hall x hx'

/-- Claim C1: for every pair whose destination stat succeeded and whose
normalized source hash (ETag with quotes stripped) equals the hex-encoded
destination hash case-insensitively, the decision is Skip-HashMatch
regardless of the size fields, and the object's step performs no staging,
download or upload: no I/O events, and accumulator, destination store and
local disk are unchanged. -/
theorem hash_match_always_skips (d : Bool) (dir : String) (obj : S3Object)
    (a : GSAttrs) (env : TransferEnv) (acc : Nat) (store : Store)
    (h : hashEq (stripQuotes obj.eTag) a = true) :
    actionToDecision (decideAction d (stripQuotes obj.eTag) obj.size (some a)) =
      .skipHashMatch ∧
    specDecision d (stripQuotes obj.eTag) obj.size (some a) = .skipHashMatch ∧
    stepObject d dir obj (some a) env acc store =
      .ok acc store (decideAction d (stripQuotes obj.eTag) obj.size (some a))
        [] false := by
  have hd := decideAction_some_hashT d (stripQuotes obj.eTag) obj.size a h
  refine ⟨?_, ?_, ?_⟩
  · rw [hd]; by_cases hs : obj.size = a.size <;> simp [hs, actionToDecision]
  · rw [← decide_refines, hd]
    by_cases hs : obj.size = a.size <;> simp [hs, actionToDecision]
  · refine stepObject_skip d dir obj (some a) env acc store _ rfl ?_
    rw [hd]; by_cases hs : obj.size = a.size <;> simp [hs]

/-- Witness for hash_match_always_skips: concrete pair with matching hash
(up to case) and differing sizes (3 against 9). -/
theorem hash_match_always_skips_witness :
    actionToDecision (decideAction false (stripQuotes sampleObjA.eTag) sampleObjA.size
      (some sampleAttrsFF9)) = .skipHashMatch ∧
    specDecision false (stripQuotes sampleObjA.eTag) sampleObjA.size
      (some sampleAttrsFF9) = .skipHashMatch ∧
    stepObject false sampleDir sampleObjA (some sampleAttrsFF9) sampleEnvAllOk 0 [] =
      .ok 0 [] (decideAction false (stripQuotes sampleObjA.eTag) sampleObjA.size
        (some sampleAttrsFF9)) [] false :=
  hash_match_always_skips false sampleDir sampleObjA sampleAttrsFF9 sampleEnvAllOk 0 []
    (by decide)

/-- Claim C7: for every pair whose destination stat succeeded, whose
hashes differ case-insensitively and whose sizes are equal, the decision
is Skip-SizeMatch and no transfer occurs: no I/O events, accumulator and
store unchanged. -/
theorem size_match_skips (d : Bool) (dir : String) (obj : S3Object) (a : GSAttrs)
    (env : TransferEnv) (acc : Nat) (store : Store)
    (h : hashEq (stripQuotes obj.eTag) a = false) (hs : obj.size = a.size) :
    decideAction d (stripQuotes obj.eTag) obj.size (some a) = .skipSize ∧
    actionToDecision (decideAction d (stripQuotes obj.eTag) obj.size (some a)) =
      .skipSizeMatch ∧
    stepObject d dir obj (some a) env acc store = .ok acc store .skipSize [] false := by
  have hd := decideAction_some_size d (stripQuotes obj.eTag) obj.size a h hs
  exact ⟨hd, by rw [hd]; rfl, stepObject_skip d dir obj (some a) env acc store _ hd
    (Or.inr (Or.inr rfl))⟩

/-- Witness for size_match_skips: hashes ff10 against 0102, both size 3. -/
theorem size_match_skips_witness :
    decideAction true (stripQuotes sampleObjA.eTag) sampleObjA.size
      (some sampleAttrsOther3) = .skipSize ∧
    actionToDecision (decideAction true (stripQuotes sampleObjA.eTag) sampleObjA.size
      (some sampleAttrsOther3)) = .skipSizeMatch ∧
    stepObject true sampleDir sampleObjA (some sampleAttrsOther3) sampleEnvAllOk 7 [] =
      .ok 7 [] .skipSize [] false :=
  size_match_skips true sampleDir sampleObjA sampleAttrsOther3 sampleEnvAllOk 7 []
    (by decide) (by decide)

/-- Claim C6: when the destination stat fails the decision is Transfer
(Transfer-DryRun under dry-run); the stat failure is not escalated as an
error of the run - with the pipeline operations succeeding the run
continues past the object normally. -/
theorem stat_failure_means_transfer (d : Bool) (dir : String) (obj : S3Object)
    (env : TransferEnv) (acc : Nat) (store : Store)
    (hm : env.mkdirOk = true) (hc : env.createOk = true) (hu : env.uploadOk = true)
    (hv : env.verifyStatOk = true) (hsz : env.uploadedAttrs.size = obj.size) :
    decideAction d (stripQuotes obj.eTag) obj.size none =
      (if d then .dryTransfer else .transfer) ∧
    actionToDecision (decideAction d (stripQuotes obj.eTag) obj.size none) =
      (if d then .transferDryRun else .transfer) ∧
    ∃ acc' store' act evs, stepObject d dir obj none env acc store =
      .ok acc' store' act evs false := by
  refine ⟨decideAction_none d _ _, ?_, ?_⟩
  · rw [decideAction_none]; cases d <;> simp [actionToDecision]
  · cases d with
    | true =>
      exact ⟨_, _, _, _, stepObject_dry true dir obj none env acc store
        (by simp [decideAction_none])⟩
    | false =>
      exact ⟨_, _, _, _, stepObject_transfer_ok false dir obj none env acc store
        (by simp [decideAction_none]) hm hc hu hv hsz⟩

/-- Witness for stat_failure_means_transfer at a concrete absent
destination with a fully succeeding environment. -/
theorem stat_failure_means_transfer_witness :
    decideAction false (stripQuotes sampleObjA.eTag) sampleObjA.size none =
      (if false then .dryTransfer else .transfer) ∧
    actionToDecision (decideAction false (stripQuotes sampleObjA.eTag)
      sampleObjA.size none) = (if false then .transferDryRun else .transfer) ∧
    ∃ acc' store' act evs, stepObject false sampleDir sampleObjA none sampleEnvAllOk
      0 [] = .ok acc' store' act evs false :=
  stat_failure_means_transfer false sampleDir sampleObjA sampleEnvAllOk 0 []
    rfl rfl rfl rfl (by decide)

/-- Claim C8: under dry-run a Transfer decision performs no I/O (no
events), leaves the destination store and the staging directory untouched,
and the accumulator takes exactly the value it takes after the successful
non-dry-run transfer of the same object. -/
theorem dry_run_frame (dir : String) (obj : S3Object) (r : Option GSAttrs)
    (envDry envWet : TransferEnv) (acc : Nat) (store : Store)
    (hdec : decideAction false (stripQuotes obj.eTag) obj.size r = .transfer)
    (hm : envWet.mkdirOk = true) (hc : envWet.createOk = true)
    (hu : envWet.uploadOk = true) (hv : envWet.verifyStatOk = true)
    (hsz : envWet.uploadedAttrs.size = obj.size) :
    stepObject true dir obj r envDry acc store =
      .ok ((acc + obj.size) % 2 ^ 64) store .dryTransfer [] false ∧
    stepObject false dir obj r envWet acc store =
      .ok ((acc + obj.size) % 2 ^ 64) ((obj.key, envWet.uploadedAttrs) :: store)
        .transfer (transferEvents dir obj) false := by
  exact ⟨stepObject_dry true dir obj r envDry acc store
      ((decideAction_dry_iff _ _ r).mpr hdec),
    stepObject_transfer_ok false dir obj r envWet acc store hdec hm hc hu hv hsz⟩

/-- Witness for dry_run_frame: absent destination, size 3, accumulator 5;
both modes reach accumulator 8. -/
theorem dry_run_frame_witness :
    stepObject true sampleDir sampleObjA none sampleEnvDL 5 [] =
      .ok ((5 + sampleObjA.size) % 2 ^ 64) [] .dryTransfer [] false ∧
    stepObject false sampleDir sampleObjA none sampleEnvAllOk 5 [] =
      .ok ((5 + sampleObjA.size) % 2 ^ 64)
        ((sampleObjA.key, sampleEnvAllOk.uploadedAttrs) :: []) .transfer
        (transferEvents sampleDir sampleObjA) false :=
  dry_run_frame sampleDir sampleObjA none sampleEnvDL sampleEnvAllOk 5 []
    (by decide) rfl rfl rfl rfl (by decide)

/-- Claim C10: when the destination stat fails the decision is computed
without reading any destination attribute: the branch selection is the
same for any two attribute values, agrees with the absent-destination
case of the Option model, and equals Transfer (or its dry-run variant). -/
theorem absent_attrs_never_read (d : Bool) (m : String) (s : Nat) (a b : GSAttrs) :
    decideRaw d false m s a = decideRaw d false m s b ∧
    decideAction d m s none = decideRaw d false m s a ∧
    decideRaw d false m s a = (if d then .dryTransfer else .transfer) := by
  refine ⟨?_, ?_, decideRaw_statFail d m s a⟩
  · rw [decideRaw_statFail, decideRaw_statFail]
  · rw [decideAction_none, decideRaw_statFail]

/-- Claim C2 (code bug): the source discards the error returned by the S3
download (src/S3toGS.go:157), so a failed download is neither fatal nor
prevents the upload.  Concretely, with every operation succeeding except
the download, the step still uploads the staged file and completes
normally; moreover the step outcome never depends on the download result
at all. -/
theorem download_error_ignored :
    stepObject false sampleDir sampleObjA none sampleEnvDL 0 [] =
      .ok 3 [(sampleObjA.key, sampleAttrsFF3)] .transfer
        (transferEvents sampleDir sampleObjA) false ∧
    (∀ (d : Bool) (dir : String) (obj : S3Object) (r : Option GSAttrs)
      (mk cr up vs : Bool) (ua : GSAttrs) (acc : Nat) (store : Store),
      stepObject d dir obj r ⟨mk, cr, true, up, vs, ua⟩ acc store =
        stepObject d dir obj r ⟨mk, cr, false, up, vs, ua⟩ acc store) := by
  refine ⟨by decide, ?_⟩
  intro d dir obj r mk cr up vs ua acc store
  rfl

/-- Claim C3 counterexample: with stage, download and upload succeeding
but the post-upload size verification failing (uploaded size 9 against
source size 3), the step aborts fatally, yet the staged file has already
been removed: the removeFile event precedes the verification statDst event
and the staged file is reported absent from disk.  This refutes that the
staged file is removed only after verification succeeds. -/
theorem remove_precedes_verify_cx :
    stepObject false sampleDir sampleObjA none sampleEnvBadVerify 0 [] =
      .fatal 1 (transferEvents sampleDir sampleObjA) false ∧
    transferEvents sampleDir sampleObjA =
      [.mkdirAll sampleDir, .createFile (joinPath sampleDir sampleKeyA),
       .download sampleKeyA (joinPath sampleDir sampleKeyA),
       .upload (joinPath sampleDir sampleKeyA) sampleKeyA,
       .removeFile (joinPath sampleDir sampleKeyA), .statDst sampleKeyA] := by
  exact ⟨by decide, by decide⟩

/-- Claim C3 (amended): the per-object pipeline for a Transfer decision
runs stage, then download, then upload, then removal of the staged file,
then the verification stat - removal precedes verification, so whatever
the verification outcome the staged file is not left on disk; an upload
failure aborts the run with the staged file left on disk for
inspection. -/
theorem pipeline_order_amended (d : Bool) (dir : String) (obj : S3Object)
    (r : Option GSAttrs) (env : TransferEnv) (acc : Nat) (store : Store)
    (hdec : decideAction d (stripQuotes obj.eTag) obj.size r = .transfer)
    (hm : env.mkdirOk = true) (hc : env.createOk = true) :
    (env.uploadOk = true →
      (stepObject d dir obj r env acc store).eventList = transferEvents dir obj ∧
      (stepObject d dir obj r env acc store).stagedLeft = false) ∧
    (env.uploadOk = false →
      stepObject d dir obj r env acc store = .fatal 1 (uploadEvents dir obj) true) := by
  constructor
  · intro hu
    by_cases hv : env.verifyStatOk = true ∧ env.uploadedAttrs.size = obj.size
    · rw [stepObject_transfer_ok d dir obj r env acc store hdec hm hc hu hv.1 hv.2]
      exact ⟨rfl, rfl⟩
    · have hv' : env.verifyStatOk = false ∨ env.uploadedAttrs.size ≠ obj.size := by
        rcases Bool.eq_false_or_eq_true env.verifyStatOk with hb | hb
        · exact Or.inr (fun hx => hv ⟨hb, hx⟩)
        · exact Or.inl hb
      rw [stepObject_transfer_verifyFail d dir obj r env acc store hdec hm hc hu hv']
      exact ⟨rfl, rfl⟩
  · intro hu
    exact stepObject_transfer_uploadFail d dir obj r env acc store hdec hm hc hu

/-- Witness for pipeline_order_amended at the concrete failing-verify
environment. -/
theorem pipeline_order_amended_witness :
    (sampleEnvBadVerify.uploadOk = true →
      (stepObject false sampleDir sampleObjA none sampleEnvBadVerify 0 []).eventList =
        transferEvents sampleDir sampleObjA ∧
      (stepObject false sampleDir sampleObjA none sampleEnvBadVerify 0 []).stagedLeft =
        false) ∧
    (sampleEnvBadVerify.uploadOk = false →
      stepObject false sampleDir sampleObjA none sampleEnvBadVerify 0 [] =
        .fatal 1 (uploadEvents sampleDir sampleObjA) true) :=
  pipeline_order_amended false sampleDir sampleObjA none sampleEnvBadVerify 0 []
    (by decide) rfl rfl

/-- Claim C4: after the upload the destination is re-statted (statDst is
the final pipeline event); if that stat fails or the reported size differs
from the source size, the step is fatal with exit code 1 and the whole run
aborts - the remaining listing, whatever it is, is never processed. -/
theorem verify_failure_aborts_run (dir : String) (obj : S3Object)
    (rest : List S3Object) (so : String → Bool) (env : String → TransferEnv)
    (acc : Nat) (store : Store)
    (hdec : decideAction false (stripQuotes obj.eTag) obj.size
      (if so obj.key then findAttrs store obj.key else none) = .transfer)
    (hm : (env obj.key).mkdirOk = true) (hc : (env obj.key).createOk = true)
    (hu : (env obj.key).uploadOk = true)
    (hv : (env obj.key).verifyStatOk = false ∨
      (env obj.key).uploadedAttrs.size ≠ obj.size) :
    stepObject false dir obj (if so obj.key then findAttrs store obj.key else none)
      (env obj.key) acc store = .fatal 1 (transferEvents dir obj) false ∧
    runSync false dir (obj :: rest) so env acc store = .aborted 1 := by
  have hstep := stepObject_transfer_verifyFail false dir obj _ (env obj.key) acc store
    hdec hm hc hu hv
  exact ⟨hstep,
    runSync_cons_fatal false dir obj rest so env acc store 1 _ false hstep⟩

/-- Witness for verify_failure_aborts_run: one pending further object that
is never reached. -/
theorem verify_failure_aborts_run_witness :
    stepObject false sampleDir sampleObjA
      (if (fun (_ : String) => true) sampleObjA.key then findAttrs [] sampleObjA.key
        else none) (sampleEnvBadVerify) 0 [] =
      .fatal 1 (transferEvents sampleDir sampleObjA) false ∧
    runSync false sampleDir (sampleObjA :: [⟨"b.bin", sampleTagFF, 4⟩])
      (fun _ => true) (fun _ => sampleEnvBadVerify) 0 [] = .aborted 1 :=
  verify_failure_aborts_run sampleDir sampleObjA [⟨"b.bin", sampleTagFF, 4⟩]
    (fun _ => true) (fun _ => sampleEnvBadVerify) 0 []
    (by decide) rfl rfl rfl (Or.inr (by decide))

/-- Claim C5 counterexample: a dry run over three objects of size 2^63-1
reaches the reporting state with every decision Transfer-DryRun, yet the
accumulator holds 2^63-3 - the uint64 arithmetic of
amtTransferred += uint64(s3Size) wrapped - which differs from the exact
sum 3*(2^63-1) of the source sizes. -/
theorem accumulator_wraps_cx :
    runSync true sampleDir bigObjs (fun _ => true) (fun _ => sampleEnvAllOk) 0 [] =
      .done (2 ^ 63 - 3) [] [.dryTransfer, .dryTransfer, .dryTransfer] ∧
    transferSum (bigObjs.zip [.dryTransfer, .dryTransfer, .dryTransfer]) =
      3 * (2 ^ 63 - 1) ∧
    2 ^ 63 - 3 ≠ 3 * (2 ^ 63 - 1) := by
  refine ⟨by decide, by decide, by decide⟩

/-- Claim C5 (amended): for every run that reaches the reporting state the
accumulator equals, modulo 2^64 (uint64 wraparound), the sum of the source
sizes of exactly the objects whose decision was Transfer or
Transfer-DryRun - skipped objects contribute zero - and equals that exact
sum whenever it is below 2^64. -/
theorem accumulator_mod_sum (d : Bool) (dir : String) (objs : List S3Object)
    (so : String → Bool) (env : String → TransferEnv) (store : Store)
    (accF : Nat) (stF : Store) (acts : List SyncAction)
    (h : runSync d dir objs so env 0 store = .done accF stF acts) :
    acts.length = objs.length ∧
    accF = transferSum (objs.zip acts) % 2 ^ 64 ∧
    (transferSum (objs.zip acts) < 2 ^ 64 → accF = transferSum (objs.zip acts)) := by
  obtain ⟨he, hl⟩ := runSync_done_acc d dir objs so env 0 store accF stF acts
    (by norm_num) h
  refine ⟨hl, by simpa using he, ?_⟩
  intro hlt
  rw [he]
  omega

/-- Witness for accumulator_mod_sum: one dry-run transfer of size 3. -/
theorem accumulator_mod_sum_witness :
    ([SyncAction.dryTransfer] : List SyncAction).length = [sampleObjA].length ∧
    3 = transferSum ([sampleObjA].zip [SyncAction.dryTransfer]) % 2 ^ 64 ∧
    (transferSum ([sampleObjA].zip [SyncAction.dryTransfer]) < 2 ^ 64 →
      3 = transferSum ([sampleObjA].zip [SyncAction.dryTransfer])) :=
  accumulator_mod_sum true sampleDir [sampleObjA] (fun _ => true)
    (fun _ => sampleEnvAllOk) [] 3 [] [.dryTransfer] (by decide)

/-- Claim C9: if a first non-dry-run sync completes, then a second run
over the same unchanged listing, with the destination as the first run
left it and reliable destination stats, decides a skip (Skip-HashMatch or
Skip-SizeMatch) for every object, performs no transfer, accumulates
nothing, and leaves the destination store exactly unchanged. -/
theorem second_run_all_skips (dir1 dir2 : String) (objs : List S3Object)
    (so1 : String → Bool) (env1 env2 : String → TransferEnv)
    (store0 stF : Store) (accF : Nat) (acts1 : List SyncAction)
    (hnd : (objs.map S3Object.key).Nodup)
    (h1 : runSync false dir1 objs so1 env1 0 store0 = .done accF stF acts1) :
    ∃ acts2, runSync false dir2 objs (fun _ => true) env2 0 stF = .done 0 stF acts2 ∧
      ∀ act ∈ acts2, actionToDecision act = SyncDecision.skipHashMatch ∨
        actionToDecision act = .skipSizeMatch := by
  have hg := runSync_good dir1 objs so1 env1 0 store0 accF stF acts1 hnd h1
  obtain ⟨acts2, hrun, hall⟩ := runSync_allGood dir2 objs env2 0 stF hg
  refine ⟨acts2, hrun, fun act ha => ?_⟩
  rcases hall act ha with hcase | hcase | hcase <;> subst hcase <;>
    simp [actionToDecision]

/-- Witness for second_run_all_skips: a first run that transfers the one
object, then a second run over the resulting store. -/
theorem second_run_all_skips_witness :
    ∃ acts2, runSync false sampleDir [sampleObjA] (fun _ => true)
      (fun _ => sampleEnvDL) 0 [(sampleKeyA, sampleAttrsFF3)] =
        .done 0 [(sampleKeyA, sampleAttrsFF3)] acts2 ∧
      ∀ act ∈ acts2, actionToDecision act = SyncDecision.skipHashMatch ∨
        actionToDecision act = .skipSizeMatch :=
  second_run_all_skips sampleDir sampleDir [sampleObjA] (fun _ => true)
    (fun _ => sampleEnvAllOk) (fun _ => sampleEnvDL) [] [(sampleKeyA, sampleAttrsFF3)]
    3 [.transfer] (by decide) (by decide)
